import Mathlib

/-!
Shallow embedding of the analytical core of the `news-api` repository:
the similarity detector (`src/similarity_detector.py`) and the
co-occurrence / network analyzer (`src/cooccurrence_analyzer.py`).

Python floats are modelled as rationals (`ℚ`), Python dicts either as
association lists (when iteration order matters) or as functions with an
`Option`/default codomain (membership = non-default value).  Calls into
scikit-learn and networkx that can raise are modelled as `Except`-valued
inputs; infallible library calls enter as plain values.
-/

namespace NewsAPI

/-- A news item as consumed by the similarity detector: the `title`, `summary`
and `source` fields of the Python dicts.  In the model every item carries a
source string, so the `.get('source', default)` fallbacks of the source
never fire. -/
structure Doc where
  title : String
  summary : String
  source : String
deriving DecidableEq, Inhabited

/-- A similar-news pair as built by `SimilarityDetector.find_similar_pairs`. -/
structure SimPair where
  news1 : Doc
  news2 : Doc
  similarity_score : ℚ
  news1_index : Nat
  news2_index : Nat
deriving DecidableEq, Inhabited

/-- `SimilarityDetector` instance state: the constructor stores the threshold
it is given (no validation is performed in `__init__`). -/
structure SimilarityDetector where
  similarity_threshold : ℚ
deriving DecidableEq

/-- `SimilarityDetector.__init__`: store the threshold exactly as given. -/
def SimilarityDetector.init (similarity_threshold : ℚ) : SimilarityDetector :=
  { similarity_threshold := similarity_threshold }

/-- `SimilarityDetector.prepare_texts`: join each item's title and summary with
a single space and strip surrounding whitespace (`f-string` plus `.strip()`). -/
def prepare_texts (news_items : List Doc) : List String :=
  news_items.map (fun item => (item.title ++ " " ++ item.summary).trim)

/-- The comparator realised by Python's stable `list.sort(key=score,
reverse=True)`: an element may stay before another iff its score is not
smaller. -/
def scoreDescLE (a b : SimPair) : Bool :=
  decide (b.similarity_score ≤ a.similarity_score)

/-- The pair record appended by `find_similar_pairs` for indices `i < j`. -/
def mkSimPair (similarity_matrix : Nat → Nat → ℚ) (news_items : List Doc)
    (i j : Nat) : SimPair :=
  { news1 := news_items.getD i default
    news2 := news_items.getD j default
    similarity_score := similarity_matrix i j
    news1_index := i
    news2_index := j }

/-- The pairs appended by the inner loop `for j in range(i+1, n_items)` of
`find_similar_pairs`, in loop order. -/
def rawRow (similarity_matrix : Nat → Nat → ℚ) (news_items : List Doc)
    (similarity_threshold : ℚ) (i : Nat) : List SimPair :=
  ((List.range news_items.length).filter (fun j => decide (i < j))).filterMap (fun j =>
    if similarity_threshold ≤ similarity_matrix i j then
      some (mkSimPair similarity_matrix news_items i j)
    else none)

/-- The upper-triangle scan of `find_similar_pairs` before sorting, in loop
order (`i` ascending, then `j` ascending). -/
def rawPairs (similarity_matrix : Nat → Nat → ℚ) (news_items : List Doc)
    (similarity_threshold : ℚ) : List SimPair :=
  (List.range news_items.length).flatMap
    (rawRow similarity_matrix news_items similarity_threshold)

/-- Ascending `(i, j)` index order on similar pairs (the order in which the
scan of `find_similar_pairs` appends them). -/
def pairLexLt (a b : SimPair) : Prop :=
  a.news1_index < b.news1_index ∨
    (a.news1_index = b.news1_index ∧ a.news2_index < b.news2_index)

/-- `SimilarityDetector.find_similar_pairs`: scan the upper triangle
(`for i in range(n): for j in range(i+1, n)`) of the similarity matrix, keep
the pairs whose score reaches the threshold, then stably sort by descending
score (`list.sort(key=similarity_score, reverse=True)`). -/
def find_similar_pairs (similarity_matrix : Nat → Nat → ℚ) (news_items : List Doc)
    (similarity_threshold : ℚ) : List SimPair :=
  (rawPairs similarity_matrix news_items similarity_threshold).mergeSort scoreDescLE

/-- `tuple(sorted([a, b]))` for two strings. -/
def sortedPair (a b : String) : String × String :=
  if a ≤ b then (a, b) else (b, a)

/-- Per-source-pair aggregate stored in `source_analysis['source_pairs']`. -/
structure SourcePairStats where
  count : Nat
  avg_similarity : ℚ
  pairs : List SimPair
deriving DecidableEq

/-- Result of `SimilarityDetector.analyze_source_similarity`.  The two dicts
are modelled as functions; a source pair maps to `none` exactly when it never
occurs (absent dict key). -/
structure SourceAnalysis where
  source_pairs : (String × String) → Option SourcePairStats
  source_counts : String → Nat
  total_similar_pairs : Nat

/-- One step of the grouping loop of `analyze_source_similarity`: append the
pair to the bucket of the sorted tuple of its two sources. -/
def sourceGroupStep (m : (String × String) → List SimPair) (pair : SimPair) :
    (String × String) → List SimPair :=
  let key := sortedPair pair.news1.source pair.news2.source
  Function.update m key (m key ++ [pair])

/-- One step of the counting loop of `analyze_source_similarity`:
`for source in [source1, source2]: source_counts[source] += 1`. -/
def sourceCountStep (c : String → Nat) (pair : SimPair) : String → Nat :=
  [pair.news1.source, pair.news2.source].foldl
    (fun c source => Function.update c source (c source + 1)) c

/-- `SimilarityDetector.analyze_source_similarity`: group pairs by the sorted
tuple of their two sources, count per-source participations (both sources of
every pair, so a same-source pair adds 2 to one counter), and report `count`,
`np.mean` of the scores and the grouped pairs per source pair. -/
def analyze_source_similarity (similar_pairs : List SimPair) : SourceAnalysis :=
  let source_pairs := similar_pairs.foldl sourceGroupStep (fun _ => [])
  let source_counts := similar_pairs.foldl sourceCountStep (fun _ => 0)
  { source_pairs := fun key =>
      match source_pairs key with
      | [] => none
      | ps => some
          { count := ps.length
            avg_similarity := (ps.map SimPair.similarity_score).sum / (ps.length : ℚ)
            pairs := ps }
    source_counts := source_counts
    total_similar_pairs := similar_pairs.length }

/-- The dict key `f-string` `source1 ↔ source2` used by
`detect_copy_paste_patterns` (note: not sorted, unlike
`analyze_source_similarity`). -/
def sourceKey (source1 source2 : String) : String :=
  source1 ++ " ↔ " ++ source2

/-- Result of `SimilarityDetector.detect_copy_paste_patterns`.  The
`source_patterns` dict is modelled as a function from key strings to the list
of pairs filed under that key ( `[]` = absent key).  The `time_patterns` entry
of the source is created empty and never filled, so it is omitted. -/
structure CopyPastePatterns where
  exact_matches : List SimPair
  high_similarity : List SimPair
  moderate_similarity : List SimPair
  source_patterns : String → List SimPair

/-- The empty `patterns` dict `detect_copy_paste_patterns` starts from. -/
def emptyPatterns : CopyPastePatterns :=
  { exact_matches := []
    high_similarity := []
    moderate_similarity := []
    source_patterns := fun _ => [] }

/-- One iteration of the `for pair in similar_pairs` loop of
`detect_copy_paste_patterns`: the `if/elif/elif` tier chain followed by the
different-source `source_patterns` update. -/
def copyPasteStep (patterns : CopyPastePatterns) (pair : SimPair) : CopyPastePatterns :=
  let similarity := pair.similarity_score
  let patterns :=
    if (95 / 100 : ℚ) ≤ similarity then
      { patterns with exact_matches := patterns.exact_matches ++ [pair] }
    else if (8 / 10 : ℚ) ≤ similarity then
      { patterns with high_similarity := patterns.high_similarity ++ [pair] }
    else if (7 / 10 : ℚ) ≤ similarity then
      { patterns with moderate_similarity := patterns.moderate_similarity ++ [pair] }
    else patterns
  if pair.news1.source ≠ pair.news2.source then
    let key := sourceKey pair.news1.source pair.news2.source
    { patterns with source_patterns :=
        (Function.update patterns.source_patterns key
          (patterns.source_patterns key ++ [pair])) }
  else patterns

/-- `SimilarityDetector.detect_copy_paste_patterns`. -/
def detect_copy_paste_patterns (similar_pairs : List SimPair) : CopyPastePatterns :=
  similar_pairs.foldl copyPasteStep emptyPatterns

/-- The result dict of `SimilarityDetector.detect_similarities`.  Keys that are
present only in some outcomes (`similarity_matrix`, `total_similar_pairs`,
`error`) are `Option`-valued; `source_analysis`/`copy_paste_patterns` are
`none` when the source puts the empty dict `{}` there. -/
structure SimilarityResults where
  similar_pairs : List SimPair
  source_analysis : Option SourceAnalysis
  copy_paste_patterns : Option CopyPastePatterns
  similarity_matrix : Option (List (List ℚ))
  total_news : Nat
  similarity_threshold : ℚ
  total_similar_pairs : Option Nat
  error : Option String

/-- Row-major lookup into the nested-list similarity matrix
(`similarity_matrix[i][j]`). -/
def matrixAt (m : List (List ℚ)) (i j : Nat) : ℚ :=
  (m.getD i []).getD j 0

/-- `SimilarityDetector.detect_similarities`.  The TF-IDF / cosine-similarity
computation (`calculate_cosine_similarity`, scikit-learn floating point) is
abstracted as `compute`, which either returns the matrix or raises — the only
fallible step of the guarded `try` block. -/
def detect_similarities (compute : List String → Except String (List (List ℚ)))
    (similarity_threshold : ℚ) (news_items : List Doc) : SimilarityResults :=
  if news_items.length < 2 then
    { similar_pairs := []
      source_analysis := none
      copy_paste_patterns := none
      similarity_matrix := none
      total_news := news_items.length
      similarity_threshold := similarity_threshold
      total_similar_pairs := none
      error := none }
  else
    match compute (prepare_texts news_items) with
    | .ok similarity_matrix =>
        let similar_pairs :=
          find_similar_pairs (matrixAt similarity_matrix) news_items similarity_threshold
        { similar_pairs := similar_pairs
          source_analysis := some (analyze_source_similarity similar_pairs)
          copy_paste_patterns := some (detect_copy_paste_patterns similar_pairs)
          similarity_matrix := some similarity_matrix
          total_news := news_items.length
          similarity_threshold := similarity_threshold
          total_similar_pairs := some similar_pairs.length
          error := none }
    | .error e =>
        { similar_pairs := []
          source_analysis := none
          copy_paste_patterns := none
          similarity_matrix := none
          total_news := news_items.length
          similarity_threshold := similarity_threshold
          total_similar_pairs := none
          error := some e }

/-- `CooccurrenceAnalyzer` instance state: the constructor stores both
parameters exactly as given (no validation is performed in `__init__`). -/
structure CooccurrenceAnalyzer where
  window_size : Nat
  min_cooccurrence : Nat
deriving DecidableEq

/-- `CooccurrenceAnalyzer.__init__`. -/
def CooccurrenceAnalyzer.init (window_size min_cooccurrence : Nat) :
    CooccurrenceAnalyzer :=
  { window_size := window_size, min_cooccurrence := min_cooccurrence }

/-- The loop body of the window scan: sort the two words at positions `i` and
`j`, keep the pair when the words differ and both are longer than 2
characters. -/
def windowEmit (words : List String) (i j : Nat) : Option (String × String) :=
  if (sortedPair (words.getD i "") (words.getD j "")).1
        ≠ (sortedPair (words.getD i "") (words.getD j "")).2 ∧
      2 < (sortedPair (words.getD i "") (words.getD j "")).1.length ∧
      2 < (sortedPair (words.getD i "") (words.getD j "")).2.length then
    some (sortedPair (words.getD i "") (words.getD j ""))
  else none

/-- The `(word1, word2)` keys touched by the window scan of one document, in
loop order: `for i in range(len(words)): for j in range(i+1,
min(i+window_size+1, len(words)))`.  A document is given as its whitespace
token list (`text.split()`); documents of fewer than 2 tokens are skipped by
the source (`continue`), which emits nothing anyway. -/
def windowPairs (window_size : Nat) (words : List String) : List (String × String) :=
  if words.length < 2 then []
  else
    (List.range words.length).flatMap (fun i =>
      ((List.range words.length).filter
          (fun j => decide (i < j) && decide (j < i + window_size + 1))).filterMap
        (windowEmit words i))

/-- The total count accumulated for one pair key by the `defaultdict(int)` of
`extract_cooccurrences` over all texts. -/
def cooccurrenceCount (window_size : Nat) (texts : List (List String))
    (p : String × String) : Nat :=
  (texts.flatMap (windowPairs window_size)).count p

/-- `CooccurrenceAnalyzer.extract_cooccurrences`: the returned dict holds a
key exactly when it was touched by the scan (count ≥ 1) and its total count
reaches `min_cooccurrence`. -/
def extract_cooccurrences (window_size min_cooccurrence : Nat)
    (texts : List (List String)) : (String × String) → Option Nat :=
  fun p =>
    if 1 ≤ cooccurrenceCount window_size texts p ∧
        min_cooccurrence ≤ cooccurrenceCount window_size texts p then
      some (cooccurrenceCount window_size texts p)
    else none

/-- Worded from the specification of the scan: the number of position pairs
`(i, j)` of one document with `i < j < i + window_size + 1` whose two tokens
form the canonical pair `p`. -/
def positionPairCount (window_size : Nat) (words : List String)
    (p : String × String) : Nat :=
  ((List.range words.length).flatMap (fun i =>
    (List.range words.length).map (fun j => (i, j)))).countP
    (fun ij => decide (ij.1 < ij.2) && decide (ij.2 < ij.1 + window_size + 1) &&
      decide (sortedPair (words.getD ij.1 "") (words.getD ij.2 "") = p))

/-- `positionPairCount` accumulated across all documents. -/
def claimPairCount (window_size : Nat) (texts : List (List String))
    (p : String × String) : Nat :=
  (texts.map (fun words => positionPairCount window_size words p)).sum

/-- A node of the networkx graph built by `build_network`, with its `weight`
and `size` attributes. -/
structure NodeInfo where
  word : String
  weight : Nat
  size : Nat
deriving DecidableEq

/-- An edge of the networkx graph built by `build_network`, with its `weight`
and `width` attributes. -/
structure EdgeInfo where
  word1 : String
  word2 : String
  weight : Nat
  width : Nat
deriving DecidableEq

/-- The graph built by `build_network` (nodes in insertion order, edges in
insertion order). -/
structure Network where
  nodes : List NodeInfo
  edges : List EdgeInfo
deriving DecidableEq

/-- The `word_counts` defaultdict of `build_network`: each pair's count is
added to both of its words. -/
def wordCount (cooccurrences : List ((String × String) × Nat)) (w : String) : Nat :=
  (cooccurrences.map (fun e =>
    (if e.1.1 = w then e.2 else 0) + (if e.1.2 = w then e.2 else 0))).sum

/-- The distinct words mentioned by the pair mapping (the key set of the
`word_counts` dict; none of the properties proved below depends on the dict's
iteration order). -/
def mentionedWords (cooccurrences : List ((String × String) × Nat)) : List String :=
  (cooccurrences.flatMap (fun e => [e.1.1, e.1.2])).dedup

/-- `CooccurrenceAnalyzer.build_network`: rank the mentioned words by total
incident pair weight (`sorted(..., reverse=True)[:max_nodes]`), add them as
nodes, then add every pair whose two words were kept and whose count reaches
`min_weight` as an edge.  The input dict is modelled as an association list in
insertion order. -/
def build_network (cooccurrences : List ((String × String) × Nat))
    (min_weight : Nat) (max_nodes : Nat) : Network :=
  let word_counts := (mentionedWords cooccurrences).map
    (fun w => (w, wordCount cooccurrences w))
  let top_words := (word_counts.mergeSort (fun a b => decide (b.2 ≤ a.2))).take max_nodes
  let top_word_set := top_words.map Prod.fst
  let nodes := top_words.map
    (fun wc => { word := wc.1, weight := wc.2, size := min (wc.2 * 2) 50 : NodeInfo })
  let edges := cooccurrences.filterMap (fun e =>
    if e.1.1 ∈ top_word_set ∧ e.1.2 ∈ top_word_set ∧ min_weight ≤ e.2 then
      some { word1 := e.1.1, word2 := e.1.2, weight := e.2, width := min e.2 10 }
    else none)
  { nodes := nodes, edges := edges }

/-- `nx.density`: `0` for graphs with at most one node, else `2m / (n(n-1))`. -/
def nxDensity (G : Network) : ℚ :=
  let n := G.nodes.length
  let m := G.edges.length
  if n ≤ 1 then 0 else (2 * m : ℚ) / ((n : ℚ) * ((n : ℚ) - 1))

/-- The metrics dict of `CooccurrenceAnalyzer.analyze_network_metrics`.
`Option`-valued entries are the keys only written inside the `> 1`-node and
`> 2`-node blocks; `degradation_log` records the `logger.warning` calls. -/
structure NetworkMetrics where
  num_nodes : Nat
  num_edges : Nat
  density : ℚ
  degree_centrality : Option (List (String × ℚ))
  betweenness_centrality : Option (List (String × ℚ))
  closeness_centrality : Option (List (String × ℚ))
  eigenvector_centrality : Option (List (String × ℚ))
  num_communities : Option Nat
  modularity : Option ℚ
  communities : Option (List (List String))
  degradation_log : List String
deriving DecidableEq

/-- `CooccurrenceAnalyzer.analyze_network_metrics`.  The networkx library
calls enter as arguments: `degree`, `betweenness` and `closeness` centrality
never raise and enter as plain values, while
`nx.eigenvector_centrality(G, max_iter=1000)` raises on non-convergence of
its bounded power iteration — in the source that call is **not** wrapped in
any `try`, so its failure propagates out of the whole function.  The
community-detection pipeline (`greedy_modularity_communities` plus the
modularity score) is wrapped in `try/except`: on failure the source logs a
warning and falls back to one community holding every node with modularity
`0`. -/
def analyze_network_metrics (G : Network)
    (degree betweenness closeness : List (String × ℚ))
    (eigenvector : Except String (List (String × ℚ)))
    (comm : Except String (List (List String) × ℚ)) :
    Except String NetworkMetrics := do
  let base : NetworkMetrics :=
    { num_nodes := G.nodes.length
      num_edges := G.edges.length
      density := nxDensity G
      degree_centrality := none
      betweenness_centrality := none
      closeness_centrality := none
      eigenvector_centrality := none
      num_communities := none
      modularity := none
      communities := none
      degradation_log := [] }
  let m1 ←
    if 1 < G.nodes.length then do
      let eig ← eigenvector
      pure { base with
              degree_centrality := some degree
              betweenness_centrality := some betweenness
              closeness_centrality := some closeness
              eigenvector_centrality := some eig }
    else pure base
  let m2 :=
    if 2 < G.nodes.length then
      match comm with
      | .ok res =>
          { m1 with
              num_communities := some res.1.length
              modularity := some res.2
              communities := some res.1 }
      | .error e =>
          { m1 with
              num_communities := some 1
              modularity := some 0
              communities := some [G.nodes.map NodeInfo.word]
              degradation_log :=
                m1.degradation_log ++ ["Topluluk tespiti basarisiz: " ++ e] }
    else m1
  pure m2

/-- Document frequency of a term: in how many documents it occurs.  Documents
are given as their token lists. -/
def docFreq (docs : List (List String)) (t : String) : Nat :=
  docs.countP (fun d => decide (t ∈ d))

/-- Corpus frequency of a term (scikit-learn `max_features` ranks by this). -/
def termFreq (docs : List (List String)) (t : String) : Nat :=
  (docs.flatMap id).count t

/-- The document-frequency pruning performed by the
`TfidfVectorizer(min_df=1, max_df=0.95)` configured in
`calculate_cosine_similarity`: keep a term iff it occurs in at least 1
document and in at most `0.95 · (number of documents)` documents (stated
integrally: `20 · df ≤ 19 · n` is exactly `df ≤ (95/100) · n`). -/
def dfKeep (docs : List (List String)) (t : String) : Bool :=
  decide (1 ≤ docFreq docs t) &&
    decide (20 * docFreq docs t ≤ 19 * docs.length)

/-- The vocabulary retained by the
`TfidfVectorizer(max_features=1000, stop_words=None, min_df=1, max_df=0.95)`
built by `SimilarityDetector.calculate_cosine_similarity`: among the
df-pruned terms, the top 1000 by corpus frequency. -/
def tfidf_vocabulary (docs : List (List String)) : List String :=
  (((((docs.flatMap id).dedup).filter (dfKeep docs)).mergeSort
    (fun a b => decide (termFreq docs b ≤ termFreq docs a))).take 1000)

/-- A tiny pair mapping exercising `build_network`. -/
def exCooc : List ((String × String) × Nat) :=
  [(("aaa", "bbb"), 5), (("ccc", "ddd"), 2)]

/-! Concrete inputs used to evaluate the theorems below on closed instances. -/

/-- A two-node, edgeless network. -/
def twoNodeNetwork : Network :=
  { nodes := [⟨"aaa", 1, 2⟩, ⟨"bbb", 1, 2⟩], edges := [] }

/-- A three-node network with one edge. -/
def threeNodeNetwork : Network :=
  { nodes := [⟨"aaa", 1, 2⟩, ⟨"bbb", 1, 2⟩, ⟨"ccc", 1, 2⟩]
    edges := [⟨"aaa", "bbb", 3, 3⟩] }

/-- Two sample items with identical text and different sources. -/
def exDocX : Doc := { title := "A B C", summary := "", source := "X" }

/-- See `exDocX`. -/
def exDocY : Doc := { title := "A B C", summary := "", source := "Y" }

/-- A sample similar pair between different sources. -/
def exPairXY : SimPair :=
  { news1 := exDocX, news2 := exDocY, similarity_score := 85 / 100
    news1_index := 0, news2_index := 1 }

/-- A sample similar pair whose two items share one source. -/
def exPairXX : SimPair :=
  { news1 := exDocX, news2 := { exDocY with source := "X" }
    similarity_score := 3 / 4, news1_index := 0, news2_index := 1 }

end NewsAPI

namespace NewsAPI

/-- **C3** counterexample: the claimed eager rejection does not happen.  The
similarity detector constructed with the invalid threshold `-0.7` silently
stores it, and the co-occurrence analyzer constructed with the invalid window
size `0` silently stores it; neither constructor signals any error. -/
theorem C3_counterexample :
    (SimilarityDetector.init (-(7 / 10) : ℚ)).similarity_threshold = -(7 / 10) ∧
    (CooccurrenceAnalyzer.init 0 2).window_size = 0 :=
  ⟨rfl, rfl⟩

/-- **C3** (amended): the constructors perform no validation at all: every
parameter value — including a negative similarity threshold and a zero window
size — is accepted and stored exactly as given, silently. -/
theorem C3_amended_constructors_store_unvalidated (t : ℚ) (w m : Nat) :
    (SimilarityDetector.init t).similarity_threshold = t ∧
    (CooccurrenceAnalyzer.init w m).window_size = w ∧
    (CooccurrenceAnalyzer.init w m).min_cooccurrence = m :=
  ⟨rfl, rfl, rfl⟩

/-- **C1** counterexample: on a two-node graph, when the eigenvector-centrality
power iteration fails to converge (the library call raises), the whole of
`analyze_network_metrics` aborts with that exception instead of returning a
degraded metrics report. -/
theorem C1_counterexample :
    1 < twoNodeNetwork.nodes.length ∧
    analyze_network_metrics twoNodeNetwork [] [] []
      (.error "PowerIterationFailedConvergence") (.ok ([], 0))
      = .error "PowerIterationFailedConvergence" :=
  ⟨by decide, rfl⟩

/-- **C1** (amended): for every graph with more than one node, when the
eigenvector-centrality computation fails to converge within its iteration cap,
the exception propagates out of `analyze_network_metrics` unchanged — the call
is not guarded, so no degraded report is produced for the remaining metrics. -/
theorem C1_amended_eigenvector_failure_propagates (G : Network)
    (degree betweenness closeness : List (String × ℚ)) (e : String)
    (comm : Except String (List (List String) × ℚ))
    (h : 1 < G.nodes.length) :
    analyze_network_metrics G degree betweenness closeness (.error e) comm
      = .error e := by
  simp [analyze_network_metrics, h, Except.bind]

/-- **C1** (amended) evaluated on a closed instance. -/
theorem C1_amended_witness :
    analyze_network_metrics twoNodeNetwork [] [] [] (.error "x") (.ok ([], 0))
      = .error "x" :=
  C1_amended_eigenvector_failure_propagates twoNodeNetwork [] [] [] "x"
    (.ok ([], 0)) (by decide)

/-- **C8**: for every graph with more than 2 nodes, when the greedy modularity
partitioning raises internally, `analyze_network_metrics` still returns a
metrics report (no exception reaches the caller) that reports exactly one
community containing all nodes of the graph with modularity 0, and the
degradation is logged. -/
theorem C8_community_detection_fallback (G : Network)
    (degree betweenness closeness : List (String × ℚ))
    (eig : List (String × ℚ)) (e : String)
    (h : 2 < G.nodes.length) :
    ∃ m : NetworkMetrics,
      analyze_network_metrics G degree betweenness closeness (.ok eig) (.error e)
        = .ok m ∧
      m.num_communities = some 1 ∧
      m.modularity = some 0 ∧
      m.communities = some [G.nodes.map NodeInfo.word] ∧
      m.degradation_log ≠ [] := by
  have h1 : 1 < G.nodes.length := by omega
  have heq : analyze_network_metrics G degree betweenness closeness (.ok eig) (.error e)
      = .ok
        { num_nodes := G.nodes.length
          num_edges := G.edges.length
          density := nxDensity G
          degree_centrality := some degree
          betweenness_centrality := some betweenness
          closeness_centrality := some closeness
          eigenvector_centrality := some eig
          num_communities := some 1
          modularity := some 0
          communities := some [G.nodes.map NodeInfo.word]
          degradation_log := ["Topluluk tespiti basarisiz: " ++ e] } := by
    simp [analyze_network_metrics, h, h1, Except.bind]
  exact ⟨_, heq, rfl, rfl, rfl, by simp⟩

/-- **C8** evaluated on a closed instance. -/
theorem C8_witness :
    ∃ m : NetworkMetrics,
      analyze_network_metrics threeNodeNetwork [] [] [] (.ok []) (.error "err")
        = .ok m ∧
      m.num_communities = some 1 ∧
      m.modularity = some 0 ∧
      m.communities = some [threeNodeNetwork.nodes.map NodeInfo.word] ∧
      m.degradation_log ≠ [] :=
  C8_community_detection_fallback threeNodeNetwork [] [] [] [] "err" (by decide)

/-- Both components of a sorted pair are ordered. -/
theorem sortedPair_fst_le_snd (a b : String) :
    (sortedPair a b).1 ≤ (sortedPair a b).2 := by
  unfold sortedPair
  by_cases h : a ≤ b
  · simp [h]
  · simpa [h] using le_of_not_le h

/-- A pair actually emitted by the window scan is canonical: strictly sorted,
both words longer than 2 characters. -/
theorem windowEmit_valid {words : List String} {i j : Nat} {p : String × String}
    (h : windowEmit words i j = some p) :
    p.1 < p.2 ∧ 2 < p.1.length ∧ 2 < p.2.length := by
  unfold windowEmit at h
  split_ifs at h with hc
  obtain rfl := Option.some.inj h
  exact ⟨lt_of_le_of_ne (sortedPair_fst_le_snd _ _) hc.1, hc.2.1, hc.2.2⟩

/-- For a canonical pair `p`, the scan emits `p` at `(i, j)` exactly when the
sorted pair of the two words at those positions is `p`. -/
theorem windowEmit_eq_some_iff {words : List String} {i j : Nat}
    {p : String × String}
    (hp : p.1 < p.2 ∧ 2 < p.1.length ∧ 2 < p.2.length) :
    windowEmit words i j = some p ↔
      sortedPair (words.getD i "") (words.getD j "") = p := by
  constructor
  · intro h
    unfold windowEmit at h
    split_ifs at h with hc
    exact Option.some.inj h
  · intro h
    have hcond : p.1 ≠ p.2 ∧ 2 < p.1.length ∧ 2 < p.2.length :=
      ⟨ne_of_lt hp.1, hp.2.1, hp.2.2⟩
    simp only [windowEmit, h]
    exact if_pos hcond

/-- On a canonical pair, the count of the window scan of one document is the
number of in-window position pairs forming it. -/
theorem count_windowPairs_valid (window_size : Nat) (words : List String)
    (p : String × String)
    (hp : p.1 < p.2 ∧ 2 < p.1.length ∧ 2 < p.2.length) :
    (windowPairs window_size words).count p
      = positionPairCount window_size words p := by
  unfold windowPairs positionPairCount
  by_cases hlen : words.length < 2
  · rw [if_pos hlen, List.count_nil]
    symm
    rw [List.countP_eq_zero]
    rintro ⟨i, j⟩ hmem
    obtain ⟨i', hi', hmem2⟩ := List.mem_flatMap.mp hmem
    obtain ⟨j', hj', heq⟩ := List.mem_map.mp hmem2
    obtain ⟨rfl, rfl⟩ := Prod.mk.injEq .. |>.mp heq
    simp only [Bool.and_eq_true, decide_eq_true_eq]
    rintro ⟨⟨hij, -⟩, -⟩
    have hi'' := List.mem_range.mp hi'
    have hj'' := List.mem_range.mp hj'
    omega
  · rw [if_neg hlen, List.count_flatMap, List.countP_flatMap]
    congr 1
    apply List.map_congr_left
    intro i hi
    simp only [Function.comp_apply]
    rw [List.count_filterMap, List.countP_filter, List.countP_map]
    apply List.countP_congr
    intro j hj
    simp only [Function.comp_apply, Bool.and_eq_true, beq_iff_eq, decide_eq_true_eq]
    constructor
    · rintro ⟨hemit, hij, hwin⟩
      exact ⟨⟨hij, hwin⟩, (windowEmit_eq_some_iff hp).mp hemit⟩
    · rintro ⟨⟨hij, hwin⟩, hsort⟩
      exact ⟨(windowEmit_eq_some_iff hp).mpr hsort, hij, hwin⟩

/-- A non-canonical pair is never emitted, so its count is 0. -/
theorem count_windowPairs_invalid (window_size : Nat) (words : List String)
    (p : String × String)
    (hp : ¬(p.1 < p.2 ∧ 2 < p.1.length ∧ 2 < p.2.length)) :
    (windowPairs window_size words).count p = 0 := by
  rw [List.count_eq_zero]
  intro hmem
  unfold windowPairs at hmem
  split_ifs at hmem with hlen
  · simp at hmem
  · obtain ⟨i, hi, hmem2⟩ := List.mem_flatMap.mp hmem
    obtain ⟨j, hj, hemit⟩ := List.mem_filterMap.mp hmem2
    exact hp (windowEmit_valid hemit)

/-- **C6**: `extract_cooccurrences` maps a canonical (lexicographically
sorted) pair of distinct tokens, each longer than 2 characters, to the number
of position pairs `(i, j)` with `i < j < i + window_size + 1` across all
documents whose two tokens form it; the returned mapping holds exactly the
pairs whose accumulated count reaches `min_cooccurrence` (stated for the
meaningful thresholds `min_cooccurrence ≥ 1`). -/
theorem C6_extract_cooccurrences_spec (window_size min_cooccurrence : Nat)
    (texts : List (List String)) (hmin : 1 ≤ min_cooccurrence)
    (p : String × String) :
    extract_cooccurrences window_size min_cooccurrence texts p =
      if p.1 < p.2 ∧ 2 < p.1.length ∧ 2 < p.2.length ∧
          min_cooccurrence ≤ claimPairCount window_size texts p then
        some (claimPairCount window_size texts p)
      else none := by
  unfold extract_cooccurrences cooccurrenceCount
  by_cases hval : p.1 < p.2 ∧ 2 < p.1.length ∧ 2 < p.2.length
  · have hcount : (texts.flatMap (windowPairs window_size)).count p
        = claimPairCount window_size texts p := by
      rw [List.count_flatMap]
      unfold claimPairCount
      congr 1
      apply List.map_congr_left
      intro words _
      simp only [Function.comp_apply]
      exact count_windowPairs_valid window_size words p hval
    rw [hcount]
    by_cases hge : min_cooccurrence ≤ claimPairCount window_size texts p
    · rw [if_pos ⟨by omega, hge⟩, if_pos ⟨hval.1, hval.2.1, hval.2.2, hge⟩]
    · rw [if_neg (fun h => hge h.2), if_neg (fun h => hge h.2.2.2)]
  · have hcount : (texts.flatMap (windowPairs window_size)).count p = 0 := by
      rw [List.count_flatMap]
      apply List.sum_eq_zero
      intro x hx
      obtain ⟨words, hw, rfl⟩ := List.mem_map.mp hx
      exact count_windowPairs_invalid window_size words p hval
    rw [hcount]
    rw [if_neg (fun h => by omega), if_neg (fun h => hval ⟨h.1, h.2.1, h.2.2.1⟩)]

/-- **C6** evaluated on a closed instance: the document `["aaa", "bbb"]` with
window 3 and minimum count 1 maps the pair `("aaa", "bbb")` to 1. -/
theorem C6_witness :
    extract_cooccurrences 3 1 [["aaa", "bbb"]] ("aaa", "bbb") = some 1 := by
  have hab : ("aaa" : String) ≤ "bbb" := by
    rw [String.le_iff_toList_le]
    decide
  have hba : ¬ ("bbb" : String) ≤ "aaa" := by
    rw [String.le_iff_toList_le]
    decide
  have hsp : sortedPair "aaa" "bbb" = ("aaa", "bbb") := by
    unfold sortedPair
    rw [if_pos hab]
  have hsp2 : sortedPair "bbb" "aaa" = ("aaa", "bbb") := by
    unfold sortedPair
    rw [if_neg hba]
  have hsp3 : sortedPair "aaa" "aaa" = ("aaa", "aaa") := by
    unfold sortedPair
    rw [if_pos le_rfl]
  have hsp4 : sortedPair "bbb" "bbb" = ("bbb", "bbb") := by
    unfold sortedPair
    rw [if_pos le_rfl]
  have hlt : ("aaa" : String) < "bbb" := by
    rw [String.lt_iff_toList_lt]
    decide
  have hcpc : claimPairCount 3 [["aaa", "bbb"]] ("aaa", "bbb") = 1 := by
    unfold claimPairCount positionPairCount
    simp [List.range_succ, hsp, hsp2, hsp3, hsp4]
  have h := C6_extract_cooccurrences_spec 3 1 [["aaa", "bbb"]] (by decide)
    ("aaa", "bbb")
  rw [h, hcpc, if_pos ⟨hlt, by decide, by decide, by decide⟩]

/-- In a stable descending sort by a numeric key, every element kept by
`take k` dominates every element of the input that was not kept. -/
theorem take_mergeSort_desc_dominates {α : Type} (key : α → Nat) (l : List α)
    (k : Nat) {x y : α}
    (hx : x ∈ (l.mergeSort (fun a b => decide (key b ≤ key a))).take k)
    (hy : y ∈ l)
    (hy' : y ∉ (l.mergeSort (fun a b => decide (key b ≤ key a))).take k) :
    key y ≤ key x := by
  have hsorted : (l.mergeSort (fun a b => decide (key b ≤ key a))).Pairwise
      (fun a b => decide (key b ≤ key a) = true) :=
    List.sorted_mergeSort
      (fun a b c hab hbc => by
        simp only [decide_eq_true_eq] at hab hbc ⊢
        omega)
      (fun a b => by
        simp only [Bool.or_eq_true, decide_eq_true_eq]
        omega) l
  have hys : y ∈ l.mergeSort (fun a b => decide (key b ≤ key a)) :=
    List.mem_mergeSort.mpr hy
  rw [← List.take_append_drop k (l.mergeSort (fun a b => decide (key b ≤ key a)))]
    at hsorted hys
  rcases List.mem_append.mp hys with h | h
  · exact absurd h hy'
  · have := (List.pairwise_append.mp hsorted).2.2 x hx y h
    simpa using this

/-- The nodes produced by `build_network`, unfolded. -/
theorem build_network_nodes (cooccurrences : List ((String × String) × Nat))
    (min_weight max_nodes : Nat) :
    (build_network cooccurrences min_weight max_nodes).nodes =
      (((((mentionedWords cooccurrences).map
          (fun w => (w, wordCount cooccurrences w))).mergeSort
            (fun a b => decide (b.2 ≤ a.2))).take max_nodes).map
        (fun wc => { word := wc.1, weight := wc.2, size := min (wc.2 * 2) 50 })) :=
  rfl

/-- The node-name set of `build_network` is the kept prefix of the ranking. -/
theorem build_network_node_words (cooccurrences : List ((String × String) × Nat))
    (min_weight max_nodes : Nat) :
    (build_network cooccurrences min_weight max_nodes).nodes.map NodeInfo.word =
      (((((mentionedWords cooccurrences).map
          (fun w => (w, wordCount cooccurrences w))).mergeSort
            (fun a b => decide (b.2 ≤ a.2))).take max_nodes).map Prod.fst) := by
  rw [build_network_nodes, List.map_map]
  rfl

/-- The edges produced by `build_network`, unfolded: the membership test is
against `top_word_set`, the kept prefix of the ranking. -/
theorem build_network_edges (cooccurrences : List ((String × String) × Nat))
    (min_weight max_nodes : Nat) :
    (build_network cooccurrences min_weight max_nodes).edges =
      cooccurrences.filterMap (fun e =>
        if e.1.1 ∈ (((((mentionedWords cooccurrences).map
              (fun w => (w, wordCount cooccurrences w))).mergeSort
                (fun a b => decide (b.2 ≤ a.2))).take max_nodes).map Prod.fst) ∧
            e.1.2 ∈ (((((mentionedWords cooccurrences).map
              (fun w => (w, wordCount cooccurrences w))).mergeSort
                (fun a b => decide (b.2 ≤ a.2))).take max_nodes).map Prod.fst) ∧
            min_weight ≤ e.2 then
          some { word1 := e.1.1, word2 := e.1.2, weight := e.2, width := min e.2 10 }
        else none) :=
  rfl

/-- **C7**: every edge of the graph built by `build_network` has both
endpoints among the nodes and weight at least `min_weight`; the node list
keeps at most `max_nodes` words (exactly `max_nodes` when enough words are
mentioned, all of them otherwise); each node carries its total incident pair
weight, and every mentioned word left out ranks no higher than any kept node;
an empty mapping yields the empty graph rather than an error. -/
theorem C7_build_network_invariants (cooccurrences : List ((String × String) × Nat))
    (min_weight max_nodes : Nat) :
    (∀ e ∈ (build_network cooccurrences min_weight max_nodes).edges,
      e.word1 ∈ (build_network cooccurrences min_weight max_nodes).nodes.map
          NodeInfo.word ∧
      e.word2 ∈ (build_network cooccurrences min_weight max_nodes).nodes.map
          NodeInfo.word ∧
      min_weight ≤ e.weight) ∧
    ((build_network cooccurrences min_weight max_nodes).nodes.length
      = min max_nodes (mentionedWords cooccurrences).length) ∧
    (∀ v ∈ (build_network cooccurrences min_weight max_nodes).nodes,
      v.weight = wordCount cooccurrences v.word ∧
      v.word ∈ mentionedWords cooccurrences) ∧
    (∀ w, w ∈ mentionedWords cooccurrences →
      w ∉ (build_network cooccurrences min_weight max_nodes).nodes.map NodeInfo.word →
      ∀ v ∈ (build_network cooccurrences min_weight max_nodes).nodes,
        wordCount cooccurrences w ≤ v.weight) ∧
    (cooccurrences = [] →
      (build_network cooccurrences min_weight max_nodes).nodes = [] ∧
      (build_network cooccurrences min_weight max_nodes).edges = []) := by
  refine ⟨?_, ?_, ?_, ?_, ?_⟩
  · intro e he
    rw [build_network_edges] at he
    obtain ⟨entry, hentry, heq⟩ := List.mem_filterMap.mp he
    split_ifs at heq with hc
    obtain rfl := Option.some.inj heq
    rw [build_network_node_words]
    exact ⟨hc.1, hc.2.1, hc.2.2⟩
  · rw [build_network_nodes]
    simp [List.length_take, List.length_mergeSort]
  · intro v hv
    rw [build_network_nodes] at hv
    obtain ⟨wc, hwc, rfl⟩ := List.mem_map.mp hv
    have hwc' : wc ∈ (mentionedWords cooccurrences).map
        (fun w => (w, wordCount cooccurrences w)) :=
      List.mem_mergeSort.mp (List.take_subset _ _ hwc)
    obtain ⟨w, hw, rfl⟩ := List.mem_map.mp hwc'
    exact ⟨rfl, hw⟩
  · intro w hw hnot v hv
    rw [build_network_node_words] at hnot
    rw [build_network_nodes] at hv
    obtain ⟨wc, hwc, rfl⟩ := List.mem_map.mp hv
    have hyl : (w, wordCount cooccurrences w) ∈ (mentionedWords cooccurrences).map
        (fun w => (w, wordCount cooccurrences w)) :=
      List.mem_map_of_mem _ hw
    have hynot : (w, wordCount cooccurrences w) ∉
        ((((mentionedWords cooccurrences).map
          (fun w => (w, wordCount cooccurrences w))).mergeSort
            (fun a b => decide (b.2 ≤ a.2))).take max_nodes) :=
      fun hcontra => hnot (List.mem_map_of_mem Prod.fst hcontra)
    exact take_mergeSort_desc_dominates Prod.snd _ max_nodes hwc hyl hynot
  · intro h
    subst h
    exact ⟨by simp [build_network_nodes, mentionedWords],
      by rw [build_network_edges]; simp⟩

/-- **C7** evaluated on a closed instance. -/
theorem C7_witness :
    ((⟨"aaa", "bbb", 5, 5⟩ : EdgeInfo).word1 ∈
        (build_network exCooc 3 2).nodes.map NodeInfo.word ∧
      (⟨"aaa", "bbb", 5, 5⟩ : EdgeInfo).word2 ∈
        (build_network exCooc 3 2).nodes.map NodeInfo.word ∧
      3 ≤ (⟨"aaa", "bbb", 5, 5⟩ : EdgeInfo).weight) ∧
    wordCount exCooc "ccc" ≤ (⟨"bbb", 5, 10⟩ : NodeInfo).weight := by
  have hwc : (mentionedWords exCooc).map (fun w => (w, wordCount exCooc w))
      = [("aaa", 5), ("bbb", 5), ("ccc", 2), ("ddd", 2)] := by decide
  have hsort : ((mentionedWords exCooc).map
        (fun w => (w, wordCount exCooc w))).mergeSort (fun a b => decide (b.2 ≤ a.2))
      = [("aaa", 5), ("bbb", 5), ("ccc", 2), ("ddd", 2)] := by
    rw [hwc]
    exact List.mergeSort_of_sorted (by decide)
  have hnodes : (build_network exCooc 3 2).nodes
      = [⟨"aaa", 5, 10⟩, ⟨"bbb", 5, 10⟩] := by
    rw [build_network_nodes, hsort]
    decide
  have hedges : (build_network exCooc 3 2).edges = [⟨"aaa", "bbb", 5, 5⟩] := by
    rw [build_network_edges, hsort]
    decide
  have h := C7_build_network_invariants exCooc 3 2
  refine ⟨h.1 _ ?_, h.2.2.2.1 "ccc" ?_ ?_ _ ?_⟩
  · rw [hedges]
    simp
  · decide
  · rw [hnodes]
    decide
  · rw [hnodes]
    simp

/-- When at most 1000 candidate terms survive the df-pruning, the vocabulary
is exactly the candidate set. -/
theorem mem_tfidf_vocabulary_of_small (docs : List (List String))
    (h : (((docs.flatMap id).dedup).filter (dfKeep docs)).length ≤ 1000)
    (t : String) :
    t ∈ tfidf_vocabulary docs ↔ t ∈ ((docs.flatMap id).dedup).filter (dfKeep docs) := by
  unfold tfidf_vocabulary
  rw [List.take_of_length_le (by simpa using h)]
  exact List.mem_mergeSort

/-- **C2** counterexample: the claim that the vectorizer excludes every term
appearing in fewer than 2 documents is false — the source configures
`min_df=1`, so a term occurring in a single document enters the vocabulary. -/
theorem C2_counterexample :
    "aaa" ∈ tfidf_vocabulary [["aaa"], ["bbb"], ["ccc"]] ∧
    docFreq [["aaa"], ["bbb"], ["ccc"]] "aaa" < 2 := by
  constructor
  · rw [mem_tfidf_vocabulary_of_small _ (by decide)]
    decide
  · decide

/-- **C2** (amended): the TF-IDF vocabulary is bounded to the top 1000 terms
by corpus frequency and excludes terms appearing in more than 95% of
documents, but its lower document-frequency bound is `min_df=1`: every term
appearing in at least one document is a candidate, so single-document terms
are not excluded. -/
theorem C2_amended_tfidf_vocabulary_spec (docs : List (List String)) :
    (tfidf_vocabulary docs).length ≤ 1000 ∧
    (∀ t ∈ tfidf_vocabulary docs,
      1 ≤ docFreq docs t ∧
      20 * docFreq docs t ≤ 19 * docs.length) ∧
    (∀ t, t ∈ docs.flatMap id → dfKeep docs t = true →
      t ∉ tfidf_vocabulary docs →
      ∀ u ∈ tfidf_vocabulary docs, termFreq docs t ≤ termFreq docs u) := by
  refine ⟨?_, ?_, ?_⟩
  · unfold tfidf_vocabulary
    simp [List.length_take]
  · intro t ht
    unfold tfidf_vocabulary at ht
    have ht' : t ∈ ((docs.flatMap id).dedup).filter (dfKeep docs) :=
      List.mem_mergeSort.mp (List.take_subset _ _ ht)
    have hk := (List.mem_filter.mp ht').2
    unfold dfKeep at hk
    simp only [Bool.and_eq_true, decide_eq_true_eq] at hk
    exact hk
  · intro t htmem hkeep htnot u hu
    unfold tfidf_vocabulary at hu htnot
    exact take_mergeSort_desc_dominates (termFreq docs) _ 1000 hu
      (List.mem_filter.mpr ⟨List.mem_dedup.mpr htmem, hkeep⟩) htnot

/-- **C2** (amended) evaluated on a closed instance. -/
theorem C2_amended_witness :
    1 ≤ docFreq [["aaa"], ["bbb"]] "aaa" ∧
    20 * docFreq [["aaa"], ["bbb"]] "aaa" ≤
      19 * ([["aaa"], ["bbb"]] : List (List String)).length := by
  have h := C2_amended_tfidf_vocabulary_spec [["aaa"], ["bbb"]]
  refine h.2.1 "aaa" ?_
  rw [mem_tfidf_vocabulary_of_small _ (by decide)]
  decide

/-- The value of one bucket after one step of the grouping loop of
`analyze_source_similarity`. -/
theorem sourceGroupStep_apply (m : (String × String) → List SimPair)
    (p : SimPair) (key : String × String) :
    sourceGroupStep m p key =
      if sortedPair p.news1.source p.news2.source = key then m key ++ [p]
      else m key := by
  unfold sourceGroupStep
  by_cases h : sortedPair p.news1.source p.news2.source = key
  · simp [Function.update_apply, h]
  · simp [Function.update_apply, Ne.symm h, h]

/-- The value of one counter after one step of the counting loop of
`analyze_source_similarity`: both sources of the pair contribute. -/
theorem sourceCountStep_apply (c : String → Nat) (p : SimPair) (s : String) :
    sourceCountStep c p s =
      c s + ((if p.news1.source = s then 1 else 0) +
        (if p.news2.source = s then 1 else 0)) := by
  unfold sourceCountStep
  simp only [List.foldl_cons, List.foldl_nil, Function.update_apply]
  by_cases h1 : p.news1.source = s <;> by_cases h2 : p.news2.source = s
  · subst h1
    rw [h2]
    simp
  · subst h1
    simp [h2]
    exact fun h => absurd h.symm h2
  · subst h2
    simp [h1]
    exact fun h => absurd h.symm h1
  · rw [if_neg (fun h => h2 h.symm), if_neg (fun h => h1 h.symm)]
    simp [h1, h2]

/-- Each source-pair bucket accumulated over the grouping loop is a filter of
the input in order. -/
theorem foldl_sourceGroups (pairs : List SimPair)
    (g : (String × String) → List SimPair) (key : String × String) :
    (pairs.foldl sourceGroupStep g) key =
      g key ++ pairs.filter
        (fun p => decide (sortedPair p.news1.source p.news2.source = key)) := by
  induction pairs generalizing g with
  | nil => simp
  | cons p rest ih =>
    rw [List.foldl_cons, ih, sourceGroupStep_apply, List.filter_cons]
    by_cases h : sortedPair p.news1.source p.news2.source = key <;> simp [h]

/-- Each per-source counter accumulated over the counting loop sums the
participations of that source over all pairs. -/
theorem foldl_sourceCounts (pairs : List SimPair) (c : String → Nat) (s : String) :
    (pairs.foldl sourceCountStep c) s =
      c s + (pairs.map (fun p => (if p.news1.source = s then 1 else 0) +
        (if p.news2.source = s then 1 else 0))).sum := by
  induction pairs generalizing c with
  | nil => simp
  | cons p rest ih =>
    rw [List.foldl_cons, ih, sourceCountStep_apply]
    simp
    omega

/-- The `source_pairs` dict of `analyze_source_similarity`, in closed form. -/
theorem analyze_source_pairs_eq (pairs : List SimPair) (key : String × String) :
    (analyze_source_similarity pairs).source_pairs key =
      match pairs.filter
          (fun p => decide (sortedPair p.news1.source p.news2.source = key)) with
      | [] => none
      | ps => some
          { count := ps.length
            avg_similarity := (ps.map SimPair.similarity_score).sum / (ps.length : ℚ)
            pairs := ps } := by
  unfold analyze_source_similarity
  simp only [foldl_sourceGroups, List.nil_append]

/-- The `source_counts` dict of `analyze_source_similarity`, in closed form. -/
theorem analyze_source_counts_eq (pairs : List SimPair) (s : String) :
    (analyze_source_similarity pairs).source_counts s =
      (pairs.map (fun p => (if p.news1.source = s then 1 else 0) +
        (if p.news2.source = s then 1 else 0))).sum := by
  unfold analyze_source_similarity
  simp only [foldl_sourceCounts]
  simp

/-- **C9**: `analyze_source_similarity` groups every pair (same-source pairs
included, under the key `(S, S)`) beneath the lexicographically sorted pair of
its two sources; each reported group carries `count` equal to its number of
pairs and `avg_similarity` equal to the arithmetic mean of their scores; and
every pair increments the counters of both of its sources, so a same-source
pair adds 2 to that source's counter. -/
theorem C9_source_similarity_aggregation (similar_pairs : List SimPair) :
    (∀ p ∈ similar_pairs, ∃ r,
      (analyze_source_similarity similar_pairs).source_pairs
        (sortedPair p.news1.source p.news2.source) = some r ∧ p ∈ r.pairs) ∧
    (∀ key r,
      (analyze_source_similarity similar_pairs).source_pairs key = some r →
      r.pairs = similar_pairs.filter
          (fun p => decide (sortedPair p.news1.source p.news2.source = key)) ∧
      r.count = r.pairs.length ∧
      r.avg_similarity =
        (r.pairs.map SimPair.similarity_score).sum / (r.pairs.length : ℚ)) ∧
    (∀ s, (analyze_source_similarity similar_pairs).source_counts s =
      (similar_pairs.map (fun p => (if p.news1.source = s then 1 else 0) +
        (if p.news2.source = s then 1 else 0))).sum) ∧
    (∀ (p : SimPair) (rest : List SimPair) (s : String),
      p.news1.source = s → p.news2.source = s →
      (analyze_source_similarity (p :: rest)).source_counts s =
        (analyze_source_similarity rest).source_counts s + 2) := by
  refine ⟨?_, ?_, ?_, ?_⟩
  · intro p hp
    rw [analyze_source_pairs_eq]
    have hpf : p ∈ similar_pairs.filter
        (fun q => decide (sortedPair q.news1.source q.news2.source =
          sortedPair p.news1.source p.news2.source)) :=
      List.mem_filter.mpr ⟨hp, by simp⟩
    cases hfil : similar_pairs.filter
        (fun q => decide (sortedPair q.news1.source q.news2.source =
          sortedPair p.news1.source p.news2.source)) with
    | nil => rw [hfil] at hpf; simp at hpf
    | cons a l =>
        refine ⟨_, rfl, ?_⟩
        rw [← hfil]
        exact hpf
  · intro key r h
    rw [analyze_source_pairs_eq] at h
    cases hfil : similar_pairs.filter
        (fun p => decide (sortedPair p.news1.source p.news2.source = key)) with
    | nil => rw [hfil] at h; simp at h
    | cons a l =>
        rw [hfil] at h
        simp only [Option.some.injEq] at h
        subst h
        exact ⟨rfl, rfl, rfl⟩
  · intro s
    exact analyze_source_counts_eq similar_pairs s
  · intro p rest s h1 h2
    rw [analyze_source_counts_eq, analyze_source_counts_eq]
    simp [h1, h2]
    omega

/-- **C9** evaluated on a closed instance: a same-source pair is grouped under
the key `("X", "X")` and adds 2 to the counter of `"X"`. -/
theorem C9_witness :
    (∃ r, (analyze_source_similarity [exPairXX]).source_pairs
        (sortedPair "X" "X") = some r ∧ exPairXX ∈ r.pairs) ∧
    (analyze_source_similarity [exPairXX]).source_counts "X" =
      (analyze_source_similarity ([] : List SimPair)).source_counts "X" + 2 := by
  have h := C9_source_similarity_aggregation [exPairXX]
  exact ⟨h.1 exPairXX (by simp), h.2.2.2 exPairXX [] "X" rfl rfl⟩

/-- **C10**: the three outcomes of `detect_similarities` are distinguished by
their keys: `error` is present exactly in the internal-failure outcome,
`similarity_matrix` (and with it `total_similar_pairs`) exactly in the
successful outcome, and whenever `similarity_matrix` is absent (the
insufficient-data and failure outcomes) the `similar_pairs`,
`source_analysis` and `copy_paste_patterns` entries are all empty. -/
theorem C10_detect_similarities_outcome_keys
    (compute : List String → Except String (List (List ℚ)))
    (similarity_threshold : ℚ) (news_items : List Doc) :
    ((detect_similarities compute similarity_threshold news_items).error ≠ none ↔
      2 ≤ news_items.length ∧
        ∃ e, compute (prepare_texts news_items) = .error e) ∧
    ((detect_similarities compute similarity_threshold news_items).similarity_matrix ≠ none ↔
      2 ≤ news_items.length ∧
        ∃ mat, compute (prepare_texts news_items) = .ok mat) ∧
    ((detect_similarities compute similarity_threshold news_items).total_similar_pairs ≠ none ↔
      (detect_similarities compute similarity_threshold news_items).similarity_matrix ≠ none) ∧
    ((detect_similarities compute similarity_threshold news_items).similarity_matrix = none →
      (detect_similarities compute similarity_threshold news_items).similar_pairs = [] ∧
      (detect_similarities compute similarity_threshold news_items).source_analysis = none ∧
      (detect_similarities compute similarity_threshold news_items).copy_paste_patterns = none) := by
  unfold detect_similarities
  by_cases hlen : news_items.length < 2
  · have : ¬ 2 ≤ news_items.length := by omega
    simp [hlen, this]
  · have h2 : 2 ≤ news_items.length := by omega
    cases hc : compute (prepare_texts news_items) with
    | ok mat => simp [hlen, hc, h2]
    | error e => simp [hlen, hc, h2]

/-- **C10** evaluated on a closed instance (a failing similarity computation). -/
theorem C10_witness :
    (detect_similarities (fun _ => .error "boom") (1 / 2) [exDocX, exDocY]).error ≠ none ∧
    (detect_similarities (fun _ => .error "boom") (1 / 2) [exDocX, exDocY]).similar_pairs = [] := by
  have h := C10_detect_similarities_outcome_keys
    (fun _ => .error "boom") (1 / 2) [exDocX, exDocY]
  have hm : (detect_similarities (fun _ => .error "boom") (1 / 2)
      [exDocX, exDocY]).similarity_matrix = none := by
    by_contra hne
    obtain ⟨-, mat, hmat⟩ := h.2.1.mp hne
    simp at hmat
  exact ⟨h.1.mpr ⟨by decide, "boom", rfl⟩, (h.2.2.2 hm).1⟩

/-- The `exact_matches` field after one step of the
`detect_copy_paste_patterns` loop. -/
theorem copyPasteStep_exact_matches (acc : CopyPastePatterns) (p : SimPair) :
    (copyPasteStep acc p).exact_matches =
      if (95 / 100 : ℚ) ≤ p.similarity_score then acc.exact_matches ++ [p]
      else acc.exact_matches := by
  unfold copyPasteStep
  by_cases h1 : (95 / 100 : ℚ) ≤ p.similarity_score <;>
    by_cases h2 : (8 / 10 : ℚ) ≤ p.similarity_score <;>
      by_cases h3 : (7 / 10 : ℚ) ≤ p.similarity_score <;>
        by_cases h4 : p.news1.source ≠ p.news2.source <;>
          simp [h1, h2, h3, h4]

/-- The `high_similarity` field after one step of the loop (the `elif` makes
the band exclusive of the `exact` one). -/
theorem copyPasteStep_high_similarity (acc : CopyPastePatterns) (p : SimPair) :
    (copyPasteStep acc p).high_similarity =
      if ¬ (95 / 100 : ℚ) ≤ p.similarity_score ∧ (8 / 10 : ℚ) ≤ p.similarity_score then
        acc.high_similarity ++ [p]
      else acc.high_similarity := by
  unfold copyPasteStep
  by_cases h1 : (95 / 100 : ℚ) ≤ p.similarity_score <;>
    by_cases h2 : (8 / 10 : ℚ) ≤ p.similarity_score <;>
      by_cases h3 : (7 / 10 : ℚ) ≤ p.similarity_score <;>
        by_cases h4 : p.news1.source ≠ p.news2.source <;>
          simp [h1, h2, h3, h4]

/-- The `moderate_similarity` field after one step of the loop. -/
theorem copyPasteStep_moderate_similarity (acc : CopyPastePatterns) (p : SimPair) :
    (copyPasteStep acc p).moderate_similarity =
      if ¬ (95 / 100 : ℚ) ≤ p.similarity_score ∧ ¬ (8 / 10 : ℚ) ≤ p.similarity_score ∧
          (7 / 10 : ℚ) ≤ p.similarity_score then
        acc.moderate_similarity ++ [p]
      else acc.moderate_similarity := by
  unfold copyPasteStep
  by_cases h1 : (95 / 100 : ℚ) ≤ p.similarity_score <;>
    by_cases h2 : (8 / 10 : ℚ) ≤ p.similarity_score <;>
      by_cases h3 : (7 / 10 : ℚ) ≤ p.similarity_score <;>
        by_cases h4 : p.news1.source ≠ p.news2.source <;>
          simp [h1, h2, h3, h4]

/-- The `source_patterns` bucket of one key after one step of the loop. -/
theorem copyPasteStep_source_patterns (acc : CopyPastePatterns) (p : SimPair)
    (key : String) :
    (copyPasteStep acc p).source_patterns key =
      if p.news1.source ≠ p.news2.source ∧ key = sourceKey p.news1.source p.news2.source then
        acc.source_patterns key ++ [p]
      else acc.source_patterns key := by
  unfold copyPasteStep
  by_cases h1 : (95 / 100 : ℚ) ≤ p.similarity_score <;>
    by_cases h2 : (8 / 10 : ℚ) ≤ p.similarity_score <;>
      by_cases h3 : (7 / 10 : ℚ) ≤ p.similarity_score <;>
        by_cases h4 : p.news1.source ≠ p.news2.source <;>
          by_cases h5 : key = sourceKey p.news1.source p.news2.source <;>
            simp [h1, h2, h3, h4, h5, Function.update_apply]

/-- The `exact_matches` tier accumulated over the whole loop is a filter. -/
theorem foldl_copyPaste_exact (pairs : List SimPair) (acc : CopyPastePatterns) :
    (pairs.foldl copyPasteStep acc).exact_matches =
      acc.exact_matches ++
        pairs.filter (fun p => decide ((95 / 100 : ℚ) ≤ p.similarity_score)) := by
  induction pairs generalizing acc with
  | nil => simp
  | cons p rest ih =>
    rw [List.foldl_cons, ih, copyPasteStep_exact_matches, List.filter_cons]
    by_cases h : (95 / 100 : ℚ) ≤ p.similarity_score <;> simp [h]

/-- The `high_similarity` tier accumulated over the whole loop is a filter. -/
theorem foldl_copyPaste_high (pairs : List SimPair) (acc : CopyPastePatterns) :
    (pairs.foldl copyPasteStep acc).high_similarity =
      acc.high_similarity ++
        pairs.filter (fun p => !decide ((95 / 100 : ℚ) ≤ p.similarity_score) &&
          decide ((8 / 10 : ℚ) ≤ p.similarity_score)) := by
  induction pairs generalizing acc with
  | nil => simp
  | cons p rest ih =>
    rw [List.foldl_cons, ih, copyPasteStep_high_similarity, List.filter_cons]
    by_cases h1 : (95 / 100 : ℚ) ≤ p.similarity_score <;>
      by_cases h2 : (8 / 10 : ℚ) ≤ p.similarity_score <;> simp [h1, h2]

/-- The `moderate_similarity` tier accumulated over the whole loop is a
filter. -/
theorem foldl_copyPaste_moderate (pairs : List SimPair) (acc : CopyPastePatterns) :
    (pairs.foldl copyPasteStep acc).moderate_similarity =
      acc.moderate_similarity ++
        pairs.filter (fun p => !decide ((95 / 100 : ℚ) ≤ p.similarity_score) &&
          (!decide ((8 / 10 : ℚ) ≤ p.similarity_score) &&
            decide ((7 / 10 : ℚ) ≤ p.similarity_score))) := by
  induction pairs generalizing acc with
  | nil => simp
  | cons p rest ih =>
    rw [List.foldl_cons, ih, copyPasteStep_moderate_similarity, List.filter_cons]
    by_cases h1 : (95 / 100 : ℚ) ≤ p.similarity_score <;>
      by_cases h2 : (8 / 10 : ℚ) ≤ p.similarity_score <;>
        by_cases h3 : (7 / 10 : ℚ) ≤ p.similarity_score <;> simp [h1, h2, h3]

/-- Each `source_patterns` bucket accumulated over the whole loop is a
filter. -/
theorem foldl_copyPaste_source (pairs : List SimPair) (acc : CopyPastePatterns)
    (key : String) :
    (pairs.foldl copyPasteStep acc).source_patterns key =
      acc.source_patterns key ++
        pairs.filter (fun p => decide (p.news1.source ≠ p.news2.source) &&
          decide (key = sourceKey p.news1.source p.news2.source)) := by
  induction pairs generalizing acc with
  | nil => simp
  | cons p rest ih =>
    rw [List.foldl_cons, ih, copyPasteStep_source_patterns, List.filter_cons]
    by_cases h1 : p.news1.source ≠ p.news2.source <;>
      by_cases h2 : key = sourceKey p.news1.source p.news2.source <;>
        simp [h1, h2]

/-- **C5**: `detect_copy_paste_patterns` assigns each pair with score ≥ 0.7
exactly one tier — `exact` iff score ≥ 0.95, `high` iff 0.80 ≤ score < 0.95,
`moderate` iff 0.70 ≤ score < 0.80, and none of the tiers below 0.70 — and a
pair is filed in the `source_patterns` index exactly when its two documents'
sources differ (under the ordered `source1 ↔ source2` key); the input list of
pairs is not modified either way. -/
theorem C5_copy_paste_tiers (similar_pairs : List SimPair) :
    (∀ p, p ∈ (detect_copy_paste_patterns similar_pairs).exact_matches ↔
      p ∈ similar_pairs ∧ (95 / 100 : ℚ) ≤ p.similarity_score) ∧
    (∀ p, p ∈ (detect_copy_paste_patterns similar_pairs).high_similarity ↔
      p ∈ similar_pairs ∧ (8 / 10 : ℚ) ≤ p.similarity_score ∧
        p.similarity_score < 95 / 100) ∧
    (∀ p, p ∈ (detect_copy_paste_patterns similar_pairs).moderate_similarity ↔
      p ∈ similar_pairs ∧ (7 / 10 : ℚ) ≤ p.similarity_score ∧
        p.similarity_score < 8 / 10) ∧
    (∀ p key, p ∈ (detect_copy_paste_patterns similar_pairs).source_patterns key ↔
      p ∈ similar_pairs ∧ p.news1.source ≠ p.news2.source ∧
        key = sourceKey p.news1.source p.news2.source) := by
  unfold detect_copy_paste_patterns
  refine ⟨fun p => ?_, fun p => ?_, fun p => ?_, fun p key => ?_⟩
  · rw [foldl_copyPaste_exact]
    simp [emptyPatterns, List.mem_filter, and_comm]
  · rw [foldl_copyPaste_high]
    simp only [emptyPatterns, List.nil_append, List.mem_filter, Bool.and_eq_true,
      Bool.not_eq_eq_eq_not, Bool.not_true, decide_eq_false_iff_not, decide_eq_true_eq,
      not_le]
    tauto
  · rw [foldl_copyPaste_moderate]
    simp only [emptyPatterns, List.nil_append, List.mem_filter, Bool.and_eq_true,
      Bool.not_eq_eq_eq_not, Bool.not_true, decide_eq_false_iff_not, decide_eq_true_eq,
      not_le]
    constructor
    · rintro ⟨hm, h1, h2, h3⟩
      exact ⟨hm, h3, h2⟩
    · rintro ⟨hm, h1, h2⟩
      exact ⟨hm, by linarith, h2, h1⟩
  · rw [foldl_copyPaste_source]
    simp [emptyPatterns, List.mem_filter, and_assoc]

/-- **C5** evaluated on a closed instance: a cross-source pair of score 0.97
lands in `high_similarity` only and in its `source_patterns` bucket, and a
same-source pair of score 0.75 lands in `moderate_similarity` only and in no
bucket. -/
theorem C5_witness :
    exPairXY ∈ (detect_copy_paste_patterns [exPairXY, exPairXX]).high_similarity ∧
    exPairXY ∉ (detect_copy_paste_patterns [exPairXY, exPairXX]).exact_matches ∧
    exPairXY ∈ (detect_copy_paste_patterns [exPairXY, exPairXX]).source_patterns
      (sourceKey "X" "Y") ∧
    exPairXX ∈ (detect_copy_paste_patterns [exPairXY, exPairXX]).moderate_similarity ∧
    exPairXX ∉ (detect_copy_paste_patterns [exPairXY, exPairXX]).source_patterns
      (sourceKey "X" "X") := by
  have h := C5_copy_paste_tiers [exPairXY, exPairXX]
  refine ⟨?_, ?_, ?_, ?_, ?_⟩
  · exact (h.2.1 exPairXY).mpr ⟨by simp, by norm_num [exPairXY], by norm_num [exPairXY]⟩
  · intro hmem
    have := ((h.1 exPairXY).mp hmem).2
    norm_num [exPairXY] at this
  · exact (h.2.2.2 exPairXY (sourceKey "X" "Y")).mpr
      ⟨by simp, by simp [exPairXY, exDocX, exDocY], by simp [exPairXY, exDocX, exDocY]⟩
  · exact (h.2.2.1 exPairXX).mpr ⟨by simp, by norm_num [exPairXX], by norm_num [exPairXX]⟩
  · intro hmem
    have := ((h.2.2.2 exPairXX (sourceKey "X" "X")).mp hmem).2.1
    exact this rfl

/-- The descending-score comparator is transitive. -/
theorem scoreDescLE_trans (a b c : SimPair)
    (hab : scoreDescLE a b = true) (hbc : scoreDescLE b c = true) :
    scoreDescLE a c = true := by
  simp only [scoreDescLE, decide_eq_true_eq] at hab hbc ⊢
  exact le_trans hbc hab

/-- The descending-score comparator is total. -/
theorem scoreDescLE_total (a b : SimPair) :
    (scoreDescLE a b || scoreDescLE b a) = true := by
  simp only [scoreDescLE, Bool.or_eq_true, decide_eq_true_eq]
  exact le_total _ _

/-- Membership in one row of the upper-triangle scan. -/
theorem mem_rawRow {similarity_matrix : Nat → Nat → ℚ} {news_items : List Doc}
    {similarity_threshold : ℚ} {i : Nat} {x : SimPair} :
    x ∈ rawRow similarity_matrix news_items similarity_threshold i ↔
      ∃ j, i < j ∧ j < news_items.length ∧
        similarity_threshold ≤ similarity_matrix i j ∧
        x = mkSimPair similarity_matrix news_items i j := by
  unfold rawRow
  simp only [List.mem_filterMap, List.mem_filter, List.mem_range, decide_eq_true_eq]
  constructor
  · rintro ⟨j, ⟨hj, hij⟩, hsome⟩
    split_ifs at hsome with hth
    exact ⟨j, hij, hj, hth, (Option.some.inj hsome).symm⟩
  · rintro ⟨j, hij, hj, hth, rfl⟩
    exact ⟨j, ⟨hj, hij⟩, by rw [if_pos hth]⟩

/-- Membership in the whole upper-triangle scan. -/
theorem mem_rawPairs {similarity_matrix : Nat → Nat → ℚ} {news_items : List Doc}
    {similarity_threshold : ℚ} {x : SimPair} :
    x ∈ rawPairs similarity_matrix news_items similarity_threshold ↔
      ∃ i j, i < j ∧ j < news_items.length ∧
        similarity_threshold ≤ similarity_matrix i j ∧
        x = mkSimPair similarity_matrix news_items i j := by
  unfold rawPairs
  simp only [List.mem_flatMap, List.mem_range]
  constructor
  · rintro ⟨i, hi, hrow⟩
    obtain ⟨j, hij, hj, hth, rfl⟩ := mem_rawRow.mp hrow
    exact ⟨i, j, hij, hj, hth, rfl⟩
  · rintro ⟨i, j, hij, hj, hth, rfl⟩
    exact ⟨i, by omega, mem_rawRow.mpr ⟨j, hij, hj, hth, rfl⟩⟩

/-- One row of the scan is strictly index-ascending. -/
theorem rawRow_pairwise (similarity_matrix : Nat → Nat → ℚ) (news_items : List Doc)
    (similarity_threshold : ℚ) (i : Nat) :
    (rawRow similarity_matrix news_items similarity_threshold i).Pairwise pairLexLt := by
  unfold rawRow
  rw [List.pairwise_filterMap]
  refine List.Pairwise.sublist (List.filter_sublist _) ?_
  refine (List.pairwise_lt_range _).imp ?_
  intro j1 j2 h12 b hb b' hb'
  split_ifs at hb hb'
  · simp only [Option.mem_def, Option.some.injEq] at hb hb'
    subst hb
    subst hb'
    exact Or.inr ⟨rfl, h12⟩
  · simp at hb'
  · simp at hb
  · simp at hb

/-- The whole scan is index-ascending: later rows have larger first index. -/
theorem rawPairs_pairwise (similarity_matrix : Nat → Nat → ℚ) (news_items : List Doc)
    (similarity_threshold : ℚ) :
    (rawPairs similarity_matrix news_items similarity_threshold).Pairwise pairLexLt := by
  unfold rawPairs
  rw [List.flatMap_def, List.pairwise_flatten]
  constructor
  · intro l hl
    obtain ⟨i, hi, rfl⟩ := List.mem_map.mp hl
    exact rawRow_pairwise similarity_matrix news_items similarity_threshold i
  · rw [List.pairwise_map]
    refine (List.pairwise_lt_range _).imp ?_
    intro i1 i2 h12 x hx y hy
    obtain ⟨j1, hij1, hj1, hth1, rfl⟩ := mem_rawRow.mp hx
    obtain ⟨j2, hij2, hj2, hth2, rfl⟩ := mem_rawRow.mp hy
    exact Or.inl h12

/-- The index order is irreflexive, so the scan has no duplicates. -/
theorem rawPairs_nodup (similarity_matrix : Nat → Nat → ℚ) (news_items : List Doc)
    (similarity_threshold : ℚ) :
    (rawPairs similarity_matrix news_items similarity_threshold).Nodup := by
  refine (rawPairs_pairwise similarity_matrix news_items similarity_threshold).imp ?_
  intro a b hab heq
  subst heq
  rcases hab with h | ⟨h1, h2⟩ <;> omega

/-- In a list ordered pairwise by an irreflexive asymmetric relation, any two
related members form a sublist in that order. -/
theorem pair_sublist_of_pairwise {α : Type} {R : α → α → Prop}
    (hasym : ∀ x y, R x y → ¬ R y x) :
    ∀ {l : List α}, l.Pairwise R → ∀ {a b : α}, a ∈ l → b ∈ l → R a b →
      [a, b].Sublist l := by
  intro l
  induction l with
  | nil => intro _ a b ha; cases ha
  | cons x t ih =>
    intro hp a b ha hb hab
    have hx : ∀ y ∈ t, R x y := fun y hy => List.rel_of_pairwise_cons hp hy
    rcases List.mem_cons.mp ha with rfl | ha'
    · rcases List.mem_cons.mp hb with rfl | hb'
      · exact absurd hab (hasym _ _ hab)
      · exact List.Sublist.cons₂ a (List.singleton_sublist.mpr hb')
    · rcases List.mem_cons.mp hb with rfl | hb'
      · exact absurd hab (hasym b a (hx a ha'))
      · exact List.Sublist.cons x (ih (List.Pairwise.of_cons hp) ha' hb' hab)

/-- In a duplicate-free list, two members cannot occur in both orders. -/
theorem pair_sublist_antisymm {α : Type} :
    ∀ {l : List α}, l.Nodup → ∀ {a b : α},
      [a, b].Sublist l → [b, a].Sublist l → a = b := by
  intro l
  induction l with
  | nil =>
    intro _ a b h1 _
    simp at h1
  | cons x t ih =>
    intro h a b h1 h2
    cases h1 with
    | cons _ h1' =>
      cases h2 with
      | cons _ h2' => exact ih (List.Nodup.of_cons h) h1' h2'
      | cons₂ _ h2' =>
        have hbmem : x ∈ t := h1'.subset (by simp)
        exact absurd hbmem (List.nodup_cons.mp h).1
    | cons₂ _ h1' =>
      cases h2 with
      | cons _ h2' =>
        have hamem : x ∈ t := h2'.subset (by simp)
        exact absurd hamem (List.nodup_cons.mp h).1
      | cons₂ _ h2' => rfl

/-- **C4**: `find_similar_pairs` contains exactly the upper-triangle pairs
`(i, j)` with `i < j` whose score reaches the threshold, sorted descending by
score with ties kept in ascending `(i, j)` order (the stable sort preserves
the scan order); and `detect_similarities` on a corpus of fewer than 2
documents returns an empty pair list with no error. -/
theorem C4_find_similar_pairs_spec (similarity_matrix : Nat → Nat → ℚ)
    (news_items : List Doc) (similarity_threshold : ℚ) :
    (∀ p, p ∈ find_similar_pairs similarity_matrix news_items similarity_threshold ↔
      ∃ i j, i < j ∧ j < news_items.length ∧
        similarity_threshold ≤ similarity_matrix i j ∧
        p = mkSimPair similarity_matrix news_items i j) ∧
    (find_similar_pairs similarity_matrix news_items similarity_threshold).Pairwise
      (fun a b => b.similarity_score ≤ a.similarity_score ∧
        (a.similarity_score = b.similarity_score → pairLexLt a b)) ∧
    (∀ (compute : List String → Except String (List (List ℚ))) (items : List Doc),
      items.length < 2 →
      (detect_similarities compute similarity_threshold items).similar_pairs = [] ∧
      (detect_similarities compute similarity_threshold items).error = none) := by
  refine ⟨?_, ?_, ?_⟩
  · intro p
    unfold find_similar_pairs
    rw [List.mem_mergeSort]
    exact mem_rawPairs
  · rw [List.pairwise_iff_forall_sublist]
    intro a b hab
    have hsorted := List.sorted_mergeSort scoreDescLE_trans scoreDescLE_total
      (rawPairs similarity_matrix news_items similarity_threshold)
    have hpair := List.pairwise_pair.mp (List.Pairwise.sublist hab hsorted)
    have hble : b.similarity_score ≤ a.similarity_score := by
      simpa [scoreDescLE] using hpair
    refine ⟨hble, ?_⟩
    intro heq
    by_contra hnlex
    have ha : a ∈ rawPairs similarity_matrix news_items similarity_threshold :=
      List.mem_mergeSort.mp (hab.subset (by simp))
    have hb : b ∈ rawPairs similarity_matrix news_items similarity_threshold :=
      List.mem_mergeSort.mp (hab.subset (by simp))
    have hnodup : (find_similar_pairs similarity_matrix news_items
        similarity_threshold).Nodup :=
      (List.mergeSort_perm _ _).symm.nodup
        (rawPairs_nodup similarity_matrix news_items similarity_threshold)
    have hne : a ≠ b := by
      intro h
      subst h
      exact absurd rfl
        (List.pairwise_pair.mp (List.Pairwise.sublist hab hnodup))
    have hlex_ba : pairLexLt b a := by
      obtain ⟨i1, j1, hij1, hj1, hth1, rfl⟩ := mem_rawPairs.mp ha
      obtain ⟨i2, j2, hij2, hj2, hth2, rfl⟩ := mem_rawPairs.mp hb
      by_cases h12 : i1 = i2 ∧ j1 = j2
      · exact absurd (by rw [h12.1, h12.2]) hne
      · simp only [pairLexLt, mkSimPair] at hnlex ⊢
        omega
    have hasym : ∀ x y : SimPair, pairLexLt x y → ¬ pairLexLt y x := by
      intro x y hxy hyx
      rcases hxy with h | ⟨h1, h2⟩ <;> rcases hyx with h' | ⟨h1', h2'⟩ <;> omega
    have hsub_ba : [b, a].Sublist
        (rawPairs similarity_matrix news_items similarity_threshold) :=
      pair_sublist_of_pairwise hasym
        (rawPairs_pairwise similarity_matrix news_items similarity_threshold)
        hb ha hlex_ba
    have hba_le : scoreDescLE b a = true := by
      simp [scoreDescLE, heq]
    have hsub_ba' : [b, a].Sublist
        (find_similar_pairs similarity_matrix news_items similarity_threshold) :=
      List.pair_sublist_mergeSort scoreDescLE_trans scoreDescLE_total hba_le hsub_ba
    exact hne (pair_sublist_antisymm hnodup hab hsub_ba')
  · intro compute items hlen
    unfold detect_similarities
    rw [if_pos hlen]
    exact ⟨rfl, rfl⟩

/-- **C4** evaluated on a closed instance (a one-document corpus). -/
theorem C4_witness :
    (detect_similarities (fun _ => .error "e") (1 / 2) [exDocX]).similar_pairs = [] ∧
    (detect_similarities (fun _ => .error "e") (1 / 2) [exDocX]).error = none := by
  have h := C4_find_similar_pairs_spec (fun _ _ => 0) [] (1 / 2)
  exact h.2.2 (fun _ => .error "e") [exDocX] (by decide)

end NewsAPI
